import Mathlib

/-!
Shallow embedding of the MnCraftCore license API (src/server.js).

The source file holds two variants of the service over one Postgres pool:

* a simple variant: table `licenses(license_key UNIQUE, active, created_at)`
  with endpoints GET /api/generate-key and POST /api/verify;
* an extended variant: tables `licenses(license_key UNIQUE, owner, email,
  status, created_at, expires_at, max_servers, last_check, reason)`,
  `license_servers(license_key, server_id, metadata..., UNIQUE(license_key,
  server_id))` and `license_logs(license_key, action, details, timestamp)`,
  with endpoints POST /api/license/validate, POST /api/license/check and the
  x-admin-key gated admin endpoints.

Tables are modelled as lists of rows; SQL timestamps are integers
(milliseconds since the epoch, so the 1 hour interval in the admin list is
3600000); JavaScript `undefined`/absent values are `Option.none`.  A string
request field that JavaScript treats as falsy (absent or empty) is captured
by `falsyStr`.  Each endpoint is a pure function from request and database
to response and database.
-/

/-- JavaScript falsiness of an optional string: `undefined` and the empty
string are falsy (the guards in server.js use `!license_key` etc.). -/
def falsyStr : Option String → Bool
  | none => true
  | some s => s == ""

/-! ## Extended variant: data model -/

/-- Row of the extended `licenses` table. -/
structure License where
  license_key : String
  owner : Option String
  email : Option String
  status : String
  created_at : Int
  expires_at : Option Int
  max_servers : Int
  last_check : Option Int
  reason : Option String
deriving DecidableEq, Repr

/-- Row of the `license_servers` table (one binding per installation). -/
structure ServerBinding where
  license_key : String
  server_id : String
  server_ip : Option String
  server_port : Option Int
  plugin_version : Option String
  minecraft_version : Option String
  online_players : Option Int
  max_players : Option Int
  last_seen : Int
deriving DecidableEq, Repr

/-- Row of the `license_logs` table. -/
structure LogEntry where
  license_key : Option String
  action : String
  details : String
  timestamp : Int
deriving DecidableEq, Repr

/-- The persistent state of the extended variant. -/
structure DB where
  licenses : List License
  license_servers : List ServerBinding
  license_logs : List LogEntry
deriving DecidableEq, Repr

/-- The `logAction` helper: INSERT INTO license_logs. -/
def logAction (db : DB) (k : Option String) (action details : String) (now : Int) : DB :=
  { db with license_logs := db.license_logs ++ [⟨k, action, details, now⟩] }

/-- SELECT * FROM licenses WHERE license_key = $1 (first row, if any). -/
def findLicense (db : DB) (k : String) : Option License :=
  db.licenses.find? (fun x => x.license_key == k)

/-- SELECT COUNT(*) FROM license_servers WHERE license_key = $1. -/
def countServers (db : DB) (k : String) : Nat :=
  (db.license_servers.filter (fun b => b.license_key == k)).length

/-- SELECT * FROM license_servers WHERE license_key = $1 AND server_id = $2. -/
def findBinding (db : DB) (k sid : String) : Option ServerBinding :=
  db.license_servers.find? (fun b => b.license_key == k && b.server_id == sid)

/-! ## Extended variant: POST /api/license/validate -/

/-- The body of a validate request. -/
structure ValidateRequest where
  license_key : Option String
  server_id : Option String
  server_ip : Option String
  server_port : Option Int
  plugin_version : Option String
  minecraft_version : Option String
  online_players : Option Int
  max_players : Option Int
deriving DecidableEq, Repr

/-- The expiry test of validate: `license.expires_at && new Date(license.expires_at) < new Date()`
(strict less-than; a null expiry never expires). -/
def expiresBefore (expires_at : Option Int) (now : Int) : Bool :=
  match expires_at with
  | none => false
  | some e => e < now

/-- The DO UPDATE arm of the upsert: overwrite metadata and last_seen. -/
def updateBindingRow (req : ValidateRequest) (now : Int) (b : ServerBinding) : ServerBinding :=
  { b with
      server_ip := req.server_ip
      server_port := req.server_port
      plugin_version := req.plugin_version
      minecraft_version := req.minecraft_version
      online_players := req.online_players
      max_players := req.max_players
      last_seen := now }

/-- INSERT INTO license_servers ... ON CONFLICT (license_key, server_id) DO UPDATE. -/
def upsertBinding (db : DB) (k sid : String) (req : ValidateRequest) (now : Int) : DB :=
  if findBinding db k sid ≠ none then
    { db with license_servers := db.license_servers.map (fun b =>
        if b.license_key == k && b.server_id == sid then updateBindingRow req now b else b) }
  else
    { db with license_servers := db.license_servers ++
        [⟨k, sid, req.server_ip, req.server_port, req.plugin_version, req.minecraft_version,
          req.online_players, req.max_players, now⟩] }

/-- UPDATE licenses SET last_check = CURRENT_TIMESTAMP WHERE license_key = $1. -/
def setLastCheck (db : DB) (k : String) (now : Int) : DB :=
  { db with licenses := db.licenses.map (fun l =>
      if l.license_key == k then { l with last_check := some now } else l) }

/-- UPDATE licenses SET status = EXPIRED WHERE license_key = $2. -/
def expireLicense (db : DB) (k : String) : DB :=
  { db with licenses := db.licenses.map (fun l =>
      if l.license_key == k then { l with status := "EXPIRED" } else l) }

/-- The response of the validate endpoint (one constructor per return site). -/
inductive ValidateResult where
  | missingFields
  | notFound
  | inactive (status : String) (reason : String)
  | expired
  | capacityExceeded
  | success (status : String) (owner : Option String) (expires : Option Int)
deriving DecidableEq, Repr

/-- HTTP status code attached to each validate response in server.js. -/
def validateHttpStatus : ValidateResult → Nat
  | .missingFields => 400
  | .notFound => 404
  | .inactive _ _ => 403
  | .expired => 403
  | .capacityExceeded => 403
  | .success _ _ _ => 200

/-- The `valid` flag of each validate response body. -/
def validateValid : ValidateResult → Bool
  | .success _ _ _ => true
  | _ => false

/-- POST /api/license/validate, translated statement by statement. -/
def validate (req : ValidateRequest) (db : DB) (now : Int) : ValidateResult × DB :=
  if falsyStr req.license_key || falsyStr req.server_id then
    (.missingFields, db)
  else
    let k := req.license_key.getD ""
    let sid := req.server_id.getD ""
    match findLicense db k with
    | none => (.notFound, logAction db (some k) "VALIDATE_FAILED" "Licencja nie znaleziona" now)
    | some license =>
      if license.status ≠ "ACTIVE" then
        (.inactive license.status (license.reason.getD "Licencja nieaktywna"),
          logAction db (some k) "VALIDATE_FAILED" ("Status: " ++ license.status) now)
      else if expiresBefore license.expires_at now then
        (.expired,
          logAction (expireLicense db k) (some k) "VALIDATE_FAILED" "Licencja wygasła" now)
      else if findBinding db k sid = none ∧ (countServers db k : Int) ≥ license.max_servers then
        (.capacityExceeded,
          logAction db (some k) "VALIDATE_FAILED" "Przekroczony limit serverów" now)
      else
        let db1 := setLastCheck (upsertBinding db k sid req now) k now
        (.success license.status license.owner license.expires_at,
          logAction db1 (some k) "VALIDATE_SUCCESS" ("Server: " ++ sid) now)

/-! ## Extended variant: POST /api/license/check -/

/-- The response of the check endpoint. -/
inductive CheckResult where
  | missingKey
  | notFound
  | ok (active : Bool) (status : String) (reason : String) (expires : Option Int)
deriving DecidableEq, Repr

/-- The derived `active` boolean of check:
`license.status === ACTIVE && (!license.expires_at || new Date(license.expires_at) > new Date())`
(strict greater-than). -/
def checkActive (status : String) (expires_at : Option Int) (now : Int) : Bool :=
  status == "ACTIVE" &&
    (match expires_at with
     | none => true
     | some e => e > now)

/-- POST /api/license/check: a single SELECT, no writes. -/
def licenseCheck (license_key : Option String) (db : DB) (now : Int) : CheckResult × DB :=
  if falsyStr license_key then (.missingKey, db)
  else
    match findLicense db (license_key.getD "") with
    | none => (.notFound, db)
    | some l =>
      (.ok (checkActive l.status l.expires_at now) l.status (l.reason.getD "") l.expires_at, db)

/-! ## Extended variant: admin endpoints -/

/-- The environment configuration the admin gate reads: process.env.ADMIN_KEY,
`none` when the variable is unset. -/
structure Env where
  adminKey : Option String
deriving DecidableEq, Repr

/-- Response of POST /api/admin/license/disable. -/
inductive DisableResult where
  | unauthorized
  | success
deriving DecidableEq, Repr

/-- HTTP status of each disable response. -/
def disableHttpStatus : DisableResult → Nat
  | .unauthorized => 401
  | .success => 200

/-- POST /api/admin/license/disable: gate on x-admin-key, then an
unconditional UPDATE (silent no-op on a missing key) and a log entry.
The default reason string in server.js is the Polish
"Wyłączona przez admina". -/
def adminDisable (env : Env) (header : Option String) (license_key reason : Option String)
    (db : DB) (now : Int) : DisableResult × DB :=
  if header ≠ env.adminKey then (.unauthorized, db)
  else
    let newReason := if falsyStr reason then "Wyłączona przez admina" else reason.getD ""
    let db1 := { db with licenses := db.licenses.map (fun l =>
        if license_key = some l.license_key then
          { l with status := "DISABLED", reason := some newReason } else l) }
    let db2 := logAction db1 license_key "LICENSE_DISABLED"
        (if falsyStr reason then "Admin action" else reason.getD "") now
    (.success, db2)

/-- Response of POST /api/admin/license/create. -/
inductive CreateResult where
  | unauthorized
  | created
  | storageError
deriving DecidableEq, Repr

/-- HTTP status of each create response. -/
def createHttpStatus : CreateResult → Nat
  | .unauthorized => 401
  | .created => 200
  | .storageError => 500

/-- Does a license row with this key already exist (the UNIQUE constraint)? -/
def keyExists (db : DB) (k : String) : Bool :=
  db.licenses.any (fun l => l.license_key == k)

/-- POST /api/admin/license/create: gate on x-admin-key, then INSERT.
A null license_key or owner violates NOT NULL and a duplicate key violates
UNIQUE, both surfacing as a 500 storage error.  `expires_at || null` and
`max_servers || 1` map a falsy (zero) number to the default. -/
def adminCreate (env : Env) (header : Option String)
    (license_key owner email : Option String) (expires_at : Option Int)
    (max_servers : Option Int) (db : DB) (now : Int) : CreateResult × DB :=
  if header ≠ env.adminKey then (.unauthorized, db)
  else
    match license_key, owner with
    | some k, some o =>
      if keyExists db k then (.storageError, db)
      else
        let exp := match expires_at with | some 0 => none | e => e
        let ms : Int := match max_servers with | none => 1 | some 0 => 1 | some m => m
        let db1 := { db with licenses := db.licenses ++
            [⟨k, some o, email, "ACTIVE", now, exp, ms, none, none⟩] }
        (.created, logAction db1 (some k) "LICENSE_CREATED" ("Owner: " ++ o) now)
    | _, _ => (.storageError, db)

/-- Response of GET /api/admin/licenses: each license with its count of
distinct server ids seen in the last hour (row order not modelled). -/
inductive ListResult where
  | unauthorized
  | licenses (rows : List (License × Nat))
deriving DecidableEq, Repr

/-- HTTP status of each admin list response. -/
def listHttpStatus : ListResult → Nat
  | .unauthorized => 401
  | .licenses _ => 200

/-- COUNT(DISTINCT ls.server_id) over bindings with last_seen within one hour. -/
def activeServersCount (db : DB) (k : String) (now : Int) : Nat :=
  (((db.license_servers.filter
      (fun b => b.license_key == k && b.last_seen > now - 3600000)).map
     (fun b => b.server_id)).dedup).length

/-- GET /api/admin/licenses: gate on x-admin-key, then a read-only query. -/
def adminLicenses (env : Env) (header : Option String) (db : DB) (now : Int) :
    ListResult × DB :=
  if header ≠ env.adminKey then (.unauthorized, db)
  else (.licenses (db.licenses.map (fun l => (l, activeServersCount db l.license_key now))), db)

/-! ## Simple variant: data model, GET /api/generate-key, POST /api/verify -/

/-- Row of the simple `licenses` table. -/
structure SimpleLicense where
  license_key : String
  active : Bool
  created_at : Int
deriving DecidableEq, Repr

/-- The persistent state of the simple variant. -/
structure SimpleDB where
  licenses : List SimpleLicense
deriving DecidableEq, Repr

/-- SELECT * FROM licenses WHERE license_key = $1 (simple table). -/
def findSimpleLicense (db : SimpleDB) (k : String) : Option SimpleLicense :=
  db.licenses.find? (fun x => x.license_key == k)

/-- Does a simple license row with this key exist (the UNIQUE constraint)? -/
def simpleKeyExists (db : SimpleDB) (k : String) : Bool :=
  db.licenses.any (fun l => l.license_key == k)

/-- Upper-case hexadecimal digit of a value below 16 (0-9 then A-F). -/
def hexDigitUpper (n : Nat) : Char :=
  if n < 10 then Char.ofNat (48 + n) else Char.ofNat (55 + n)

/-- One byte rendered as two upper-case hex digits. -/
def byteToHexUpper (b : Nat) : List Char :=
  [hexDigitUpper (b / 16), hexDigitUpper (b % 16)]

/-- `crypto.randomBytes(n).toString(hex).toUpperCase()` on a given byte list. -/
def toHexUpper (bytes : List Nat) : String :=
  ⟨(bytes.map byteToHexUpper).flatten⟩

/-- Is this character an upper-case hexadecimal digit (0-9 or A-F)? -/
def isUpperHexDigit (c : Char) : Bool :=
  (48 ≤ c.toNat && c.toNat ≤ 57) || (65 ≤ c.toNat && c.toNat ≤ 70)

/-- Response of GET /api/generate-key. -/
inductive GenerateResult where
  | ok (key : String)
  | storageError
deriving DecidableEq, Repr

/-- GET /api/generate-key on 16 given random bytes: render the key and
INSERT INTO licenses (license_key, active) VALUES ($1, true); a duplicate
key violates the UNIQUE constraint and surfaces as a 500 storage error. -/
def generateKey (bytes : List Nat) (db : SimpleDB) (now : Int) :
    GenerateResult × SimpleDB :=
  let key := toHexUpper bytes
  if simpleKeyExists db key then (.storageError, db)
  else (.ok key, ⟨db.licenses ++ [⟨key, true, now⟩]⟩)

/-- Response of POST /api/verify (every constructor answers HTTP 200). -/
inductive VerifyResult where
  | missingKey
  | notFound
  | deactivated
  | valid (key : String)
deriving DecidableEq, Repr

/-- Every verify response in server.js is sent without res.status, hence 200
(only the catch arm for storage errors answers 500). -/
def verifyHttpStatus : VerifyResult → Nat := fun _ => 200

/-- The `valid` flag of each verify response body. -/
def verifyValid : VerifyResult → Bool
  | .valid _ => true
  | _ => false

/-- The `message` field of each verify response body. -/
def verifyMessage : VerifyResult → String
  | .missingKey => "Brak klucza licencji"
  | .notFound => "Licencja nie istnieje w systemie"
  | .deactivated => "Licencja została dezaktywowana"
  | .valid _ => "Licencja aktywna"

/-- POST /api/verify: a single SELECT, no writes. -/
def verify (license_key : Option String) (db : SimpleDB) : VerifyResult :=
  if falsyStr license_key then .missingKey
  else
    match findSimpleLicense db (license_key.getD "") with
    | none => .notFound
    | some l => if !l.active then .deactivated else .valid l.license_key

/-! ## Helper lemmas -/

/-- find? commutes with mapping a row transformer that preserves the predicate. -/
theorem find?_map_of_pres {α : Type} (f : α → α) (p : α → Bool)
    (hpf : ∀ a, p (f a) = p a) (s : List α) :
    (s.map f).find? p = (s.find? p).map f := by
  rw [List.find?_map]
  have hp : p ∘ f = p := by funext a; exact hpf a
  rw [hp]

/-- A filtered length is unchanged by a row transformer preserving the predicate. -/
theorem length_filter_map_of_pres {α : Type} (f : α → α) (p : α → Bool)
    (hpf : ∀ a, p (f a) = p a) (s : List α) :
    ((s.map f).filter p).length = (s.filter p).length := by
  rw [← List.countP_eq_length_filter, ← List.countP_eq_length_filter, List.countP_map]
  have hp : p ∘ f = p := by funext a; exact hpf a
  rw [hp]

/-- Under the guards that precede the capacity check (license found, ACTIVE,
not past expiry), validate reduces to the capacity conditional. -/
theorem validate_active_not_expired
    (req : ValidateRequest) (db : DB) (now : Int) (k sid : String) (l : License)
    (hk : req.license_key = some k) (hk0 : k ≠ "")
    (hs : req.server_id = some sid) (hs0 : sid ≠ "")
    (hfind : findLicense db k = some l)
    (hact : l.status = "ACTIVE")
    (hexp : expiresBefore l.expires_at now = false) :
    validate req db now =
      if findBinding db k sid = none ∧ (countServers db k : Int) ≥ l.max_servers then
        (.capacityExceeded,
          logAction db (some k) "VALIDATE_FAILED" "Przekroczony limit serverów" now)
      else
        (.success l.status l.owner l.expires_at,
          logAction (setLastCheck (upsertBinding db k sid req now) k now)
            (some k) "VALIDATE_SUCCESS" ("Server: " ++ sid) now) := by
  have h1 : falsyStr (some k) = false := by simp [falsyStr, hk0]
  have h2 : falsyStr (some sid) = false := by simp [falsyStr, hs0]
  unfold validate
  rw [hk, hs, h1, h2]
  simp only [Bool.or_self, Bool.false_eq_true, if_false, Option.getD_some]
  rw [hfind]
  simp only [hact, ne_eq, not_true_eq_false, if_false, hexp]
  simp

/-- Expiring a found license is visible in a later lookup of the same key. -/
theorem findLicense_expireLicense (db : DB) (k : String) (l : License)
    (h : findLicense db k = some l) :
    findLicense (expireLicense db k) k = some { l with status := "EXPIRED" } := by
  have h' : db.licenses.find? (fun x => x.license_key == k) = some l := h
  have hl : (l.license_key == k) = true := by
    have hx := List.find?_some h'
    simpa using hx
  have hpf : ∀ x : License,
      ((if x.license_key == k then { x with status := "EXPIRED" } else x).license_key == k)
        = (x.license_key == k) := by
    intro x; split <;> rfl
  show (db.licenses.map fun x =>
      if x.license_key == k then { x with status := "EXPIRED" } else x).find?
        (fun x => x.license_key == k) = _
  rw [find?_map_of_pres _ _ hpf, h']
  have hlk : l.license_key = k := by simpa using hl
  simp [hlk]

/-! ## Witness fixtures: concrete rows, databases and requests -/

/-- A concrete extended license row: key K, ACTIVE, no expiry, cap 1. -/
def licW : License := ⟨"K", some "owner", none, "ACTIVE", 0, none, 1, none, none⟩

/-- A concrete binding of key K to server S1. -/
def bindW : ServerBinding := ⟨"K", "S1", none, none, none, none, none, none, 0⟩

/-- A database holding licW with its binding bindW. -/
def dbW : DB := ⟨[licW], [bindW], []⟩

/-- A concrete validate request from the already bound server S1. -/
def reqW : ValidateRequest :=
  ⟨some "K", some "S1", some "10.0.0.1", some 25565, some "1.0.0", some "1.20.1", some 3, some 20⟩

/-- C1: on an ACTIVE, non-expired license the validate endpoint answers
CapacityExceeded (HTTP 403, valid false) exactly when no binding for the
given server exists and the binding count has reached max_servers; an
already bound server always re-validates successfully. -/
theorem validate_capacity_iff
    (req : ValidateRequest) (db : DB) (now : Int) (k sid : String) (l : License)
    (hk : req.license_key = some k) (hk0 : k ≠ "")
    (hs : req.server_id = some sid) (hs0 : sid ≠ "")
    (hfind : findLicense db k = some l)
    (hact : l.status = "ACTIVE")
    (hexp : expiresBefore l.expires_at now = false) :
    ((validate req db now).1 = .capacityExceeded ↔
      (findBinding db k sid = none ∧ (countServers db k : Int) ≥ l.max_servers))
    ∧ (findBinding db k sid ≠ none →
        (validate req db now).1 = .success l.status l.owner l.expires_at)
    ∧ validateHttpStatus .capacityExceeded = 403
    ∧ validateValid .capacityExceeded = false := by
  rw [validate_active_not_expired req db now k sid l hk hk0 hs hs0 hfind hact hexp]
  refine ⟨?_, ?_, rfl, rfl⟩
  · split_ifs with h
    · simp [h]
    · simp [h]
  · intro hb
    rw [if_neg (fun hcond => hb hcond.1)]

/-- C1 witness: with cap 1 already filled by S1, re-validating S1 hits the
success arm of the equivalence. -/
theorem validate_capacity_iff_witness :
    (((validate reqW dbW 1).1 = .capacityExceeded ↔
      (findBinding dbW "K" "S1" = none ∧ (countServers dbW "K" : Int) ≥ licW.max_servers))
    ∧ (findBinding dbW "K" "S1" ≠ none →
        (validate reqW dbW 1).1 = .success licW.status licW.owner licW.expires_at)
    ∧ validateHttpStatus .capacityExceeded = 403
    ∧ validateValid .capacityExceeded = false) :=
  validate_capacity_iff reqW dbW 1 "K" "S1" licW rfl (by decide) rfl (by decide)
    (by decide) rfl (by decide)

/-- C2: validating an ACTIVE license whose expiry lies strictly in the past
persists the EXPIRED status, answers Expired (HTTP 403, valid false), writes
a VALIDATE_FAILED log entry, and leaves the bindings untouched. -/
theorem validate_expiry_transition
    (req : ValidateRequest) (db : DB) (now : Int) (k sid : String) (l : License) (e : Int)
    (hk : req.license_key = some k) (hk0 : k ≠ "")
    (hs : req.server_id = some sid) (hs0 : sid ≠ "")
    (hfind : findLicense db k = some l)
    (hact : l.status = "ACTIVE")
    (hexp : l.expires_at = some e) (he : e < now) :
    (validate req db now).1 = .expired
    ∧ validateHttpStatus (validate req db now).1 = 403
    ∧ validateValid (validate req db now).1 = false
    ∧ findLicense (validate req db now).2 k = some { l with status := "EXPIRED" }
    ∧ (validate req db now).2.license_servers = db.license_servers
    ∧ (validate req db now).2.license_logs =
        db.license_logs ++ [⟨some k, "VALIDATE_FAILED", "Licencja wygasła", now⟩] := by
  have h1 : falsyStr (some k) = false := by simp [falsyStr, hk0]
  have h2 : falsyStr (some sid) = false := by simp [falsyStr, hs0]
  have hexpT : expiresBefore l.expires_at now = true := by
    simp [expiresBefore, hexp, he]
  have hred : validate req db now =
      (.expired, logAction (expireLicense db k) (some k) "VALIDATE_FAILED"
        "Licencja wygasła" now) := by
    unfold validate
    rw [hk, hs, h1, h2]
    simp only [Bool.or_self, Bool.false_eq_true, if_false, Option.getD_some]
    rw [hfind]
    simp only [hact, ne_eq, not_true_eq_false, if_false, hexpT]
    simp
  rw [hred]
  refine ⟨rfl, rfl, rfl, ?_, rfl, rfl⟩
  exact findLicense_expireLicense db k l hfind

/-- An expired concrete license row: key E, ACTIVE but past its expiry. -/
def licE : License := ⟨"E", some "owner", none, "ACTIVE", 0, some 5, 1, none, none⟩

/-- A database holding only licE. -/
def dbE : DB := ⟨[licE], [], []⟩

/-- A validate request for the expired license E. -/
def reqE : ValidateRequest := ⟨some "E", some "S1", none, none, none, none, none, none⟩

/-- C2 witness: validating license E at time 9 (past its expiry 5). -/
theorem validate_expiry_transition_witness :
    ((validate reqE dbE 9).1 = .expired
    ∧ validateHttpStatus (validate reqE dbE 9).1 = 403
    ∧ validateValid (validate reqE dbE 9).1 = false
    ∧ findLicense (validate reqE dbE 9).2 "E" = some { licE with status := "EXPIRED" }
    ∧ (validate reqE dbE 9).2.license_servers = dbE.license_servers
    ∧ (validate reqE dbE 9).2.license_logs =
        dbE.license_logs ++ [⟨some "E", "VALIDATE_FAILED", "Licencja wygasła", 9⟩]) :=
  validate_expiry_transition reqE dbE 9 "E" "S1" licE 5 rfl (by decide) rfl (by decide)
    (by decide) rfl rfl (by decide)

/-- Upserting an already bound (key, server) pair keeps the binding list
length unchanged (the ON CONFLICT arm updates in place). -/
theorem length_upsert_exists (db : DB) (k sid : String) (req : ValidateRequest) (now : Int)
    (hb : findBinding db k sid ≠ none) :
    (upsertBinding db k sid req now).license_servers.length =
      db.license_servers.length := by
  unfold upsertBinding
  rw [if_pos hb]
  simp

/-- Upserting an already bound (key, server) pair keeps the per-key binding
count unchanged. -/
theorem countServers_upsert_exists (db : DB) (k sid : String) (req : ValidateRequest)
    (now : Int) (hb : findBinding db k sid ≠ none) :
    countServers (upsertBinding db k sid req now) k = countServers db k := by
  have hp : ∀ b : ServerBinding,
      ((if b.license_key == k && b.server_id == sid then updateBindingRow req now b
        else b).license_key == k) = (b.license_key == k) := by
    intro b; split <;> rfl
  unfold countServers upsertBinding
  rw [if_pos hb]
  exact length_filter_map_of_pres _ _ hp db.license_servers

/-- Upserting an already bound (key, server) pair overwrites exactly that
binding row with the request metadata. -/
theorem findBinding_upsert_exists (db : DB) (k sid : String) (req : ValidateRequest)
    (now : Int) (b0 : ServerBinding) (hb : findBinding db k sid = some b0) :
    findBinding (upsertBinding db k sid req now) k sid =
      some (updateBindingRow req now b0) := by
  have hbne : findBinding db k sid ≠ none := by
    rw [hb]; exact fun hx => Option.noConfusion hx
  have h' : db.license_servers.find?
      (fun b => b.license_key == k && b.server_id == sid) = some b0 := hb
  have hq : ∀ b : ServerBinding,
      (((if b.license_key == k && b.server_id == sid then updateBindingRow req now b
          else b).license_key == k)
        && ((if b.license_key == k && b.server_id == sid then updateBindingRow req now b
          else b).server_id == sid))
      = (b.license_key == k && b.server_id == sid) := by
    intro b; split <;> rfl
  unfold findBinding upsertBinding
  rw [if_pos hbne]
  show ((db.license_servers.map fun b =>
      if b.license_key == k && b.server_id == sid then updateBindingRow req now b
      else b).find? fun b => b.license_key == k && b.server_id == sid) = _
  rw [find?_map_of_pres _ _ hq, h']
  have hq0 : (b0.license_key == k && b0.server_id == sid) = true := by
    have hx := List.find?_some h'
    simpa using hx
  obtain ⟨hbk, hbs⟩ : b0.license_key = k ∧ b0.server_id = sid := by simpa using hq0
  simp [hbk, hbs]

/-- C3: a successful re-validation of an already bound (key, server) pair
overwrites that binding's metadata in place: it succeeds, creates no new
binding row, leaves the per-key binding count unchanged, and the stored
binding carries the request's metadata with the refreshed last_seen. -/
theorem validate_rebind_in_place
    (req : ValidateRequest) (db : DB) (now : Int) (k sid : String) (l : License)
    (b0 : ServerBinding)
    (hk : req.license_key = some k) (hk0 : k ≠ "")
    (hs : req.server_id = some sid) (hs0 : sid ≠ "")
    (hfind : findLicense db k = some l)
    (hact : l.status = "ACTIVE")
    (hexp : expiresBefore l.expires_at now = false)
    (hbind : findBinding db k sid = some b0) :
    (validate req db now).1 = .success l.status l.owner l.expires_at
    ∧ (validate req db now).2.license_servers.length = db.license_servers.length
    ∧ countServers (validate req db now).2 k = countServers db k
    ∧ findBinding (validate req db now).2 k sid = some (updateBindingRow req now b0) := by
  have hbne : findBinding db k sid ≠ none := by
    rw [hbind]; exact fun hx => Option.noConfusion hx
  rw [validate_active_not_expired req db now k sid l hk hk0 hs hs0 hfind hact hexp,
      if_neg (fun hcond => hbne hcond.1)]
  refine ⟨rfl, ?_, ?_, ?_⟩
  · show (upsertBinding db k sid req now).license_servers.length = db.license_servers.length
    exact length_upsert_exists db k sid req now hbne
  · show countServers (upsertBinding db k sid req now) k = countServers db k
    exact countServers_upsert_exists db k sid req now hbne
  · show findBinding (upsertBinding db k sid req now) k sid =
      some (updateBindingRow req now b0)
    exact findBinding_upsert_exists db k sid req now b0 hbind

/-- C3 witness: re-validating the bound pair (K, S1) in dbW. -/
theorem validate_rebind_in_place_witness :
    ((validate reqW dbW 1).1 = .success licW.status licW.owner licW.expires_at
    ∧ (validate reqW dbW 1).2.license_servers.length = dbW.license_servers.length
    ∧ countServers (validate reqW dbW 1).2 "K" = countServers dbW "K"
    ∧ findBinding (validate reqW dbW 1).2 "K" "S1" = some (updateBindingRow reqW 1 bindW)) :=
  validate_rebind_in_place reqW dbW 1 "K" "S1" licW bindW rfl (by decide) rfl (by decide)
    (by decide) rfl rfl (by decide)

/-- C4: for an existing key, check answers the stored status with the
derived active boolean and leaves the database untouched; active is true
exactly when the status is ACTIVE and the expiry is null or strictly in
the future. -/
theorem check_active_iff_frame
    (db : DB) (now : Int) (k : String) (l : License)
    (hk0 : k ≠ "") (hfind : findLicense db k = some l) :
    licenseCheck (some k) db now =
      (.ok (checkActive l.status l.expires_at now) l.status (l.reason.getD "") l.expires_at, db)
    ∧ (checkActive l.status l.expires_at now = true ↔
        (l.status = "ACTIVE" ∧ (l.expires_at = none ∨ ∃ e, l.expires_at = some e ∧ e > now))) := by
  constructor
  · have h1 : falsyStr (some k) = false := by simp [falsyStr, hk0]
    unfold licenseCheck
    rw [h1]
    simp only [Bool.false_eq_true, if_false, Option.getD_some]
    rw [hfind]
  · unfold checkActive
    cases hE : l.expires_at with
    | none => simp
    | some e => simp

/-- C4 witness: checking key K of dbW at time 1. -/
theorem check_active_iff_frame_witness :
    (licenseCheck (some "K") dbW 1 =
      (.ok (checkActive licW.status licW.expires_at 1) licW.status (licW.reason.getD "")
        licW.expires_at, dbW)
    ∧ (checkActive licW.status licW.expires_at 1 = true ↔
        (licW.status = "ACTIVE" ∧
          (licW.expires_at = none ∨ ∃ e, licW.expires_at = some e ∧ e > 1)))) :=
  check_active_iff_frame dbW 1 "K" licW (by decide) (by decide)

/-- C9: for an ACTIVE license whose expiry equals the current instant, check
reports active false (it needs a strictly future expiry) while validate does
not take the expired branch (it needs a strictly past expiry) and, capacity
permitting, still answers valid true. -/
theorem expiry_instant_disagreement
    (req : ValidateRequest) (db : DB) (now : Int) (k sid : String) (l : License)
    (hk : req.license_key = some k) (hk0 : k ≠ "")
    (hs : req.server_id = some sid) (hs0 : sid ≠ "")
    (hfind : findLicense db k = some l)
    (hact : l.status = "ACTIVE")
    (hexp : l.expires_at = some now) :
    (licenseCheck (some k) db now).1 = .ok false "ACTIVE" (l.reason.getD "") (some now)
    ∧ (validate req db now).1 ≠ .expired
    ∧ (¬(findBinding db k sid = none ∧ (countServers db k : Int) ≥ l.max_servers) →
        (validate req db now).1 = .success l.status l.owner l.expires_at
        ∧ validateValid (validate req db now).1 = true) := by
  have hexpF : expiresBefore l.expires_at now = false := by
    simp [expiresBefore, hexp]
  have hred := validate_active_not_expired req db now k sid l hk hk0 hs hs0 hfind hact hexpF
  refine ⟨?_, ?_, ?_⟩
  · have h1 : falsyStr (some k) = false := by simp [falsyStr, hk0]
    unfold licenseCheck
    rw [h1]
    simp only [Bool.false_eq_true, if_false, Option.getD_some]
    rw [hfind]
    simp [checkActive, hact, hexp]
  · rw [hred]
    split_ifs <;> simp
  · intro h
    rw [hred, if_neg h]
    exact ⟨rfl, rfl⟩

/-- A license whose expiry instant is exactly 5. -/
def licT : License := ⟨"T", some "owner", none, "ACTIVE", 0, some 5, 1, none, none⟩

/-- A database holding only licT, with no bindings. -/
def dbT : DB := ⟨[licT], [], []⟩

/-- A validate request for license T from server S1. -/
def reqT : ValidateRequest := ⟨some "T", some "S1", none, none, none, none, none, none⟩

/-- C9 witness: at time 5 (the exact expiry of licT) check reports inactive
while validate succeeds. -/
theorem expiry_instant_disagreement_witness :
    (licenseCheck (some "T") dbT 5).1 = .ok false "ACTIVE" "" (some 5)
    ∧ (validate reqT dbT 5).1 = .success "ACTIVE" (some "owner") (some 5) := by
  have H := expiry_instant_disagreement reqT dbT 5 "T" "S1" licT rfl (by decide) rfl
    (by decide) (by decide) rfl rfl
  exact ⟨H.1, (H.2.2 (by decide)).1⟩

/-! ## Admin endpoint theorems -/

/-- With a matching admin key, disable reduces to the UPDATE of every row
matching the key plus one LICENSE_DISABLED log entry. -/
theorem adminDisable_authorized_eq (secret : String) (lk reason : Option String)
    (db : DB) (now : Int) :
    adminDisable ⟨some secret⟩ (some secret) lk reason db now =
      (.success,
        ⟨db.licenses.map (fun l =>
            if lk = some l.license_key then
              { l with
                  status := "DISABLED"
                  reason := some (if falsyStr reason then "Wyłączona przez admina"
                    else reason.getD "") }
            else l),
          db.license_servers,
          db.license_logs ++ [⟨lk, "LICENSE_DISABLED",
            (if falsyStr reason then "Admin action" else reason.getD ""), now⟩]⟩) := by
  unfold adminDisable
  rw [if_neg (by simp : ¬((some secret : Option String) ≠ (⟨some secret⟩ : Env).adminKey))]
  rfl

/-- A simple ACTIVE license row with no stored reason. -/
def licD : License := ⟨"D", none, none, "ACTIVE", 0, none, 1, none, none⟩

/-- A database holding only licD. -/
def dbD : DB := ⟨[licD], [], []⟩

/-- C5 counterexample: disabling licD with the reason omitted stores the
Polish default string, not the string Disabled by admin. -/
theorem adminDisable_default_reason_counterexample :
    (adminDisable ⟨some "s"⟩ (some "s") (some "D") none dbD 3).2.licenses =
      [⟨"D", none, none, "DISABLED", 0, none, 1, none, some "Wyłączona przez admina"⟩]
    ∧ ¬((adminDisable ⟨some "s"⟩ (some "s") (some "D") none dbD 3).2.licenses =
      [⟨"D", none, none, "DISABLED", 0, none, 1, none, some "Disabled by admin"⟩]) := by
  constructor <;> decide

/-- C5 amended: with a matching admin key, disable always returns success;
an existing license of that key ends with status DISABLED and reason equal
to the supplied reason or, when it is omitted or empty, the default string
Wyłączona przez admina; a second disable leaves the licenses table as after
the first (each call appends one log entry); disabling a missing key leaves
every license unchanged. -/
theorem adminDisable_amended
    (secret k : String) (reason : Option String) (db : DB) (now now2 : Int) :
    (adminDisable ⟨some secret⟩ (some secret) (some k) reason db now).1 = .success
    ∧ (∀ l : License, findLicense db k = some l →
        findLicense (adminDisable ⟨some secret⟩ (some secret) (some k) reason db now).2 k =
          some { l with
              status := "DISABLED"
              reason := some (if falsyStr reason then "Wyłączona przez admina"
                else reason.getD "") })
    ∧ (adminDisable ⟨some secret⟩ (some secret) (some k) reason
          (adminDisable ⟨some secret⟩ (some secret) (some k) reason db now).2 now2).2.licenses =
        (adminDisable ⟨some secret⟩ (some secret) (some k) reason db now).2.licenses
    ∧ (findLicense db k = none →
        (adminDisable ⟨some secret⟩ (some secret) (some k) reason db now).2.licenses =
          db.licenses)
    ∧ (adminDisable ⟨some secret⟩ (some secret) (some k) reason db now).2.license_logs.length =
        db.license_logs.length + 1 := by
  simp only [adminDisable_authorized_eq]
  set nr : String :=
    if falsyStr reason then "Wyłączona przez admina" else reason.getD "" with hnr
  refine ⟨by trivial, ?_, ?_, ?_, ?_⟩
  · intro l hfind
    have h' : db.licenses.find? (fun x => x.license_key == k) = some l := hfind
    have hpf : ∀ x : License,
        ((if some k = some x.license_key then
            { x with status := "DISABLED", reason := some nr } else x).license_key == k)
          = (x.license_key == k) := by
      intro x; split <;> rfl
    show (db.licenses.map fun x =>
        if some k = some x.license_key then
          { x with status := "DISABLED", reason := some nr } else x).find?
        (fun x => x.license_key == k) = _
    rw [find?_map_of_pres _ _ hpf, h']
    have hlk : l.license_key = k := by
      have hx := List.find?_some h'
      simpa using hx
    simp [hlk]
  · show (db.licenses.map fun x =>
        if some k = some x.license_key then
          { x with status := "DISABLED", reason := some nr } else x).map
        (fun x => if some k = some x.license_key then
          { x with status := "DISABLED", reason := some nr } else x) = _
    rw [List.map_map]
    apply List.map_congr_left
    intro x _
    by_cases hx : some k = some x.license_key
    · simp only [Function.comp_apply]
      simp [hx]
    · simp only [Function.comp_apply]
      simp [hx]
  · intro hnone
    have hall : ∀ x ∈ db.licenses, ¬(x.license_key == k) = true :=
      List.find?_eq_none.mp hnone
    show (db.licenses.map fun x =>
        if some k = some x.license_key then
          { x with status := "DISABLED", reason := some nr } else x) = db.licenses
    have : ∀ x ∈ db.licenses,
        (if some k = some x.license_key then
          { x with status := "DISABLED", reason := some nr } else x) = id x := by
      intro x hxmem
      have hne : ¬(some k = some x.license_key) := by
        intro hcontra
        exact hall x hxmem (by simp [(Option.some.injEq _ _ ▸ hcontra : k = x.license_key)])
      rw [if_neg hne]
      rfl
    rw [List.map_congr_left this, List.map_id]
  · simp

/-- C5 amended witness: disabling licD twice with the reason omitted. -/
theorem adminDisable_amended_witness :
    findLicense (adminDisable ⟨some "s"⟩ (some "s") (some "D") none dbD 3).2 "D" =
      some { licD with status := "DISABLED", reason := some "Wyłączona przez admina" }
    ∧ (adminDisable ⟨some "s"⟩ (some "s") (some "D") none
          (adminDisable ⟨some "s"⟩ (some "s") (some "D") none dbD 3).2 4).2.licenses =
        (adminDisable ⟨some "s"⟩ (some "s") (some "D") none dbD 3).2.licenses := by
  have H := adminDisable_amended "s" "D" none dbD 3 4
  constructor
  · have := H.2.1 licD (by decide)
    simpa using this
  · exact H.2.2.1

/-- C6: with a configured admin secret, any request whose x-admin-key header
differs from it (absent headers included) is answered Unauthorized (401) by
each admin endpoint with the stored state untouched. -/
theorem admin_auth_unauthorized
    (secret : String) (header : Option String)
    (lk owner email reason : Option String) (expires_at : Option Int)
    (max_servers : Option Int) (db : DB) (now : Int)
    (hne : header ≠ some secret) :
    adminCreate ⟨some secret⟩ header lk owner email expires_at max_servers db now =
      (.unauthorized, db)
    ∧ adminDisable ⟨some secret⟩ header lk reason db now = (.unauthorized, db)
    ∧ adminLicenses ⟨some secret⟩ header db now = (.unauthorized, db)
    ∧ createHttpStatus .unauthorized = 401
    ∧ disableHttpStatus .unauthorized = 401
    ∧ listHttpStatus .unauthorized = 401 := by
  refine ⟨?_, ?_, ?_, rfl, rfl, rfl⟩
  · unfold adminCreate
    rw [if_pos (show header ≠ (⟨some secret⟩ : Env).adminKey from hne)]
  · unfold adminDisable
    rw [if_pos (show header ≠ (⟨some secret⟩ : Env).adminKey from hne)]
  · unfold adminLicenses
    rw [if_pos (show header ≠ (⟨some secret⟩ : Env).adminKey from hne)]

/-- C6 witness: an absent header against the secret s is rejected by all
three admin endpoints over dbW. -/
theorem admin_auth_unauthorized_witness :
    (adminCreate ⟨some "s"⟩ none (some "N") (some "o") none none none dbW 2 =
      (.unauthorized, dbW)
    ∧ adminDisable ⟨some "s"⟩ none (some "N") none dbW 2 = (.unauthorized, dbW)
    ∧ adminLicenses ⟨some "s"⟩ none dbW 2 = (.unauthorized, dbW)
    ∧ createHttpStatus .unauthorized = 401
    ∧ disableHttpStatus .unauthorized = 401
    ∧ listHttpStatus .unauthorized = 401) :=
  admin_auth_unauthorized "s" none (some "N") (some "o") none none none none dbW 2
    (by decide)

/-- C10: with the ADMIN_KEY environment variable unset, a request with no
x-admin-key header passes the equality gate (undefined equals undefined):
disable answers success and appends a log entry (persistence touched), and
create is never answered Unauthorized. -/
theorem unset_admin_key_absent_header_passes
    (db : DB) (k : String) (reason owner email : Option String)
    (expires_at : Option Int) (max_servers : Option Int) (now : Int) :
    (adminDisable ⟨none⟩ none (some k) reason db now).1 = .success
    ∧ (adminDisable ⟨none⟩ none (some k) reason db now).2.license_logs.length =
        db.license_logs.length + 1
    ∧ (adminCreate ⟨none⟩ none (some k) owner email expires_at max_servers db now).1 ≠
        .unauthorized := by
  have hauth : ¬((none : Option String) ≠ (⟨none⟩ : Env).adminKey) := by simp
  refine ⟨?_, ?_, ?_⟩
  · unfold adminDisable
    rw [if_neg hauth]
  · unfold adminDisable
    rw [if_neg hauth]
    simp [logAction]
  · unfold adminCreate
    rw [if_neg hauth]
    cases owner with
    | none => simp
    | some o =>
      cases hx : keyExists db k with
      | true => simp [hx]
      | false => simp [hx]

/-! ## Simple variant theorems -/

/-- The hex rendering of a byte list has two characters per byte. -/
theorem flatten_hex_length (bytes : List Nat) :
    ((bytes.map byteToHexUpper).flatten).length = 2 * bytes.length := by
  induction bytes with
  | nil => rfl
  | cons b t ih =>
    simp only [List.map_cons, List.flatten_cons, List.length_append, ih, byteToHexUpper]
    simp only [List.length_cons, List.length_nil, List.length]
    omega

/-- A hex digit of a value below 16 is an upper-case hexadecimal character. -/
theorem hexDigitUpper_isUpper (n : Nat) (h : n < 16) :
    isUpperHexDigit (hexDigitUpper n) = true := by
  interval_cases n <;> decide

/-- Every character of the hex rendering of in-range bytes is an upper-case
hexadecimal digit. -/
theorem toHexUpper_chars (bytes : List Nat) (hb : ∀ b ∈ bytes, b < 256) :
    ∀ c ∈ (toHexUpper bytes).data, isUpperHexDigit c = true := by
  intro c hc
  have hc' : c ∈ (bytes.map byteToHexUpper).flatten := hc
  rw [List.mem_flatten] at hc'
  obtain ⟨lc, hlc, hcl⟩ := hc'
  rw [List.mem_map] at hlc
  obtain ⟨b, hbmem, rfl⟩ := hlc
  have hb' : b < 256 := hb b hbmem
  have hdiv : b / 16 < 16 := by omega
  have hmod : b % 16 < 16 := by omega
  simp only [byteToHexUpper, List.mem_cons, List.not_mem_nil, or_false] at hcl
  rcases hcl with rfl | rfl
  · exact hexDigitUpper_isUpper _ hdiv
  · exact hexDigitUpper_isUpper _ hmod

/-- C7: a key generated from 16 in-range bytes is 32 upper-case hex
characters; inserting it when it already exists fails on the UNIQUE
constraint leaving the table unchanged, and otherwise appends exactly one
row holding the key. -/
theorem generateKey_format_unique
    (bytes : List Nat) (db : SimpleDB) (now : Int)
    (hlen : bytes.length = 16) (hb : ∀ b ∈ bytes, b < 256) :
    (toHexUpper bytes).length = 32
    ∧ (∀ c ∈ (toHexUpper bytes).data, isUpperHexDigit c = true)
    ∧ (simpleKeyExists db (toHexUpper bytes) = true →
        generateKey bytes db now = (.storageError, db))
    ∧ (simpleKeyExists db (toHexUpper bytes) = false →
        generateKey bytes db now =
          (.ok (toHexUpper bytes), ⟨db.licenses ++ [⟨toHexUpper bytes, true, now⟩]⟩)) := by
  refine ⟨?_, toHexUpper_chars bytes hb, ?_, ?_⟩
  · show ((bytes.map byteToHexUpper).flatten).length = 32
    rw [flatten_hex_length, hlen]
  · intro h
    simp [generateKey, h]
  · intro h
    simp [generateKey, h]

/-- The sixteen sample bytes 0 to 15. -/
def hexBytesW : List Nat := [0, 1, 2, 3, 4, 5, 6, 7, 8, 9, 10, 11, 12, 13, 14, 15]

/-- C7 witness: generating from the sample bytes into an empty table. -/
theorem generateKey_format_unique_witness :
    ((toHexUpper hexBytesW).length = 32
    ∧ (∀ c ∈ (toHexUpper hexBytesW).data, isUpperHexDigit c = true)
    ∧ (simpleKeyExists ⟨[]⟩ (toHexUpper hexBytesW) = true →
        generateKey hexBytesW ⟨[]⟩ 0 = (.storageError, ⟨[]⟩))
    ∧ (simpleKeyExists ⟨[]⟩ (toHexUpper hexBytesW) = false →
        generateKey hexBytesW ⟨[]⟩ 0 =
          (.ok (toHexUpper hexBytesW), ⟨[] ++ [⟨toHexUpper hexBytesW, true, 0⟩]⟩))) :=
  generateKey_format_unique hexBytesW ⟨[]⟩ 0 (by decide) (by decide)

/-- C8: every verify response carries HTTP 200 and a nonempty message, and
the valid flag is true exactly when the key is present, found in the table
and its row is active. -/
theorem verify_http200_valid_iff (key : Option String) (db : SimpleDB) :
    verifyHttpStatus (verify key db) = 200
    ∧ (verifyValid (verify key db) = true ↔
        (∃ l, falsyStr key = false ∧ findSimpleLicense db (key.getD "") = some l ∧
          l.active = true))
    ∧ verifyMessage (verify key db) ≠ "" := by
  refine ⟨rfl, ?_, ?_⟩
  · cases hf : falsyStr key with
    | true => simp [verify, hf, verifyValid]
    | false =>
      cases hfind : findSimpleLicense db (key.getD "") with
      | none => simp [verify, hf, hfind, verifyValid]
      | some l =>
        cases hA : l.active with
        | false => simp [verify, hf, hfind, hA, verifyValid]
        | true => simp [verify, hf, hfind, hA, verifyValid]
  · cases hv : verify key db <;> simp [verifyMessage]
